import Mathlib

/-!
Verification of the google-calendar-sync Apps Script source (the current
`Code.ts` revision: the variant with transparency handling, the locked-event
skip, the out-of-office filter and `removeAllEvents`).

The embedding below translates that TypeScript source into Lean:
* optional / possibly-`undefined` fields become `Option` values;
* JavaScript truthiness tests on optional strings become `jsTruthyStr`;
* the three-state `titlePrefix` configuration entry (`undefined` vs explicit
  `null` vs a string) becomes the `JsOpt` type;
* the Calendar gateway is modelled by the sequence of responses it returns
  (`ListOutcome`) and by an oracle for `Events.get`; the calls the program
  issues are collected in a trace;
* the user-properties store becomes a function `String → Option String`;
* `Logger.log` calls and locale-dependent date formatting have no observable
  effect on the synchronisation state and are omitted.
-/

namespace GCalSync

/-- Character-level suffix test, the semantics of JavaScript
`String.prototype.endsWith` (kept executable down to the kernel). -/
def strEndsWith (s sfx : String) : Bool :=
  sfx.data.isSuffixOf s.data

/-- JavaScript truthiness of an optional string: `undefined`, `null` and the
empty string are falsy. -/
def jsTruthyStr : Option String → Bool
  | some s => decide (s ≠ "")
  | none => false

/-- String coercion JavaScript applies when concatenating a possibly
`undefined` value, as in `'[' + calendarId + '] ' + event.summary`. -/
def jsStr : Option String → String
  | some s => s
  | none => "undefined"

/-- Three-state optional value: the source distinguishes a field that is
absent (`undefined`), explicitly `null`, and a real value
(`titlePrefix === undefined` / `titlePrefix !== null`). -/
inductive JsOpt (α : Type) where
  | undef
  | null
  | val (a : α)
deriving DecidableEq

/-- `CalendarSyncConfig` of the source.  The source field `titlePrefix` is
named `titlePrefixOpt` here because the identifier is reserved by this
development's tooling; its three states are those of `JsOpt`. -/
structure CalendarSyncConfig where
  colorId : Option String := none
  titlePrefixOpt : JsOpt String := .undef
  summary : Option String := none
  copyDescription : Option Bool := none
  visibility : Option String := none
deriving DecidableEq

/-- An attendee entry (`self` flag and `responseStatus`), both optional in
the wire schema; JavaScript tests them by truthiness / strict equality. -/
structure Attendee where
  self : Option Bool := none
  responseStatus : Option String := none
deriving DecidableEq

/-- The organizer record; only the `email` field is read by the source. -/
structure Organizer where
  email : Option String := none
deriving DecidableEq

/-- An `EventDateTime` value.  The source copies these verbatim and only
formats them for logging, so the fields stay opaque strings. -/
structure EventDateTime where
  date : Option String := none
  dateTime : Option String := none
  timeZone : Option String := none
deriving DecidableEq

/-- The `reminders` sub-object written by `copyEvent`. -/
structure EventReminders where
  useDefault : Bool
  overrides : List String
deriving DecidableEq

/-- The `source` back-link sub-object written by `copyEvent`. -/
structure EventSourceRef where
  title : String
  url : Option String
deriving DecidableEq

/-- The event schema, restricted to the fields the source reads or writes.
The wire field `end` is a Lean keyword and is embedded as `endTime`. -/
structure Event where
  id : String
  iCalUID : Option String := none
  status : Option String := none
  organizer : Option Organizer := none
  attendees : Option (List Attendee) := none
  transparency : Option String := none
  eventType : Option String := none
  summary : Option String := none
  description : Option String := none
  htmlLink : Option String := none
  start : Option EventDateTime := none
  endTime : Option EventDateTime := none
  recurrence : Option (List String) := none
  recurringEventId : Option String := none
  originalStartTime : Option EventDateTime := none
  sequence : Option Int := none
  reminders : Option EventReminders := none
  colorId : Option String := none
  visibility : Option String := none
  source : Option EventSourceRef := none
  locked : Option Bool := none
deriving DecidableEq

/-- `const isCancelled = event.status === 'cancelled'`. -/
def isCancelled (event : Event) : Bool :=
  decide (event.status = some "cancelled")

/-- `const isTransparent = event.transparency === 'transparent'`. -/
def isTransparent (event : Event) : Bool :=
  decide (event.transparency = some "transparent")

/-- `const isInvitation = event.organizer && event.organizer.email != calendarId`:
truthy exactly when an organizer record exists and its email (loosely)
differs from the source calendar id; an absent email differs from any id. -/
def isInvitation (calendarId : String) (event : Event) : Bool :=
  match event.organizer with
  | some o => decide (o.email ≠ some calendarId)
  | none => false

/-- The `isAccepted` computation of `syncEvent`: the first attendee flagged
`self` must have response status `accepted`; with no attendee list or no
self-flagged attendee the event counts as not accepted.  The source computes
this only under `isInvitation`; it is only ever read under that guard, so an
unconditional definition yields the same branch condition. -/
def isAccepted (event : Event) : Bool :=
  match event.attendees with
  | none => false
  | some atts =>
    match atts.filter (fun a => a.self = some true) with
    | [] => false
    | a :: _ => decide (a.responseStatus = some "accepted")

/-- The branch condition of `syncEvent`:
`isCancelled || isInvitation && !isAccepted || isTransparent`. -/
def suppressCond (calendarId : String) (event : Event) : Bool :=
  isCancelled event || (isInvitation calendarId event && !isAccepted event) || isTransparent event

/-- The disposition of a source event (spec §4.2): `Suppress` means the
delete branch of the reconciler, `Mirror` the create/update branch. -/
inductive Disposition where
  | Suppress
  | Mirror
deriving DecidableEq

/-- The disposition as the code computes it: the delete branch is taken
exactly when `suppressCond` holds. -/
def disposition (calendarId : String) (event : Event) : Disposition :=
  if suppressCond calendarId event then .Suppress else .Mirror

/-- The disposition as the specification words it, as an if/else-if priority
chain: cancelled, then unaccepted invitation, then transparent, else mirror.
This definition follows the spec text and is compared with `disposition`,
which follows the code. -/
def resolveSpec (calendarId : String) (event : Event) : Disposition :=
  if isCancelled event then .Suppress
  else if isInvitation calendarId event && !isAccepted event then .Suppress
  else if isTransparent event then .Suppress
  else .Mirror

/-- `copyEvent` of the source: builds the restricted mirrored event.  Fields
the object literal does not mention are absent (`none`).  Note that the
sequence number is copied from the *source* event (`sequence: event.sequence`).
-/
def copyEvent (event : Event) (calendarId : String) (calendarSyncConfig : CalendarSyncConfig) : Event :=
  let summary : Option String :=
    if jsTruthyStr calendarSyncConfig.summary then calendarSyncConfig.summary
    else match calendarSyncConfig.titlePrefixOpt with
      | .undef => some ("[" ++ calendarId ++ "] " ++ jsStr event.summary)
      | .null => event.summary
      | .val p => some (p ++ " " ++ jsStr event.summary)
  { id := event.id
    iCalUID := event.iCalUID
    reminders := some ⟨false, []⟩
    colorId := calendarSyncConfig.colorId
    summary := summary
    start := event.start
    endTime := event.endTime
    recurrence := event.recurrence
    recurringEventId := event.recurringEventId
    originalStartTime := event.originalStartTime
    source := some ⟨"[" ++ calendarId ++ "] " ++ jsStr event.summary, event.htmlLink⟩
    sequence := event.sequence
    visibility := calendarSyncConfig.visibility
    description := if calendarSyncConfig.copyDescription = some true then event.description else none
    eventType := event.eventType }

/-- A call issued against the Calendar gateway.  `Events.import` is embedded
as `importEvent` (`import` is a Lean keyword). -/
inductive GatewayCall where
  | get (calendarId eventId : String)
  | remove (calendarId eventId : String)
  | update (event : Event) (calendarId eventId : String)
  | importEvent (event : Event) (calendarId : String)
deriving DecidableEq

/-- Mutation calls are every gateway call except `get`. -/
def isMutation : GatewayCall → Bool
  | .get _ _ => false
  | _ => true

/-- The `try { get } catch` prologue of `syncEvent`: a `Not Found` error
becomes an explicit absent mirror; any other error is rethrown. -/
def primaryCopyResult : Except String Event → Except String (Option Event)
  | .ok e => .ok (some e)
  | .error msg => if strEndsWith msg "Not Found" then .ok none else .error msg

/-- The delete branch of `syncEvent`: remove the mirror when it exists and
its own status is not already cancelled (the remove error is caught and
logged, so the call is issued regardless of its outcome). -/
def suppressBranch : Option Event → List GatewayCall
  | some primaryCopy =>
    if primaryCopy.status ≠ some "cancelled" then [.remove "primary" primaryCopy.id] else []
  | none => []

/-- The mirror branch of `syncEvent`: skip a locked mirror, update an
existing one with the transformed copy, import the transformed copy when no
mirror exists. -/
def mirrorBranch (appConfig : String → CalendarSyncConfig) (calendarId : String) (event : Event) :
    Option Event → List GatewayCall
  | some primaryCopy =>
    if primaryCopy.locked = some true then []
    else [.update (copyEvent event calendarId (appConfig calendarId)) "primary" primaryCopy.id]
  | none => [.importEvent (copyEvent event calendarId (appConfig calendarId)) "primary"]

/-- `syncEvent` of the source, as a function of the `Events.get` outcome for
the event's id on the primary calendar.  It returns the gateway calls issued
(the initial `get` included) and the error it throws, if any; create, update
and delete failures are caught inside the source and do not propagate. -/
def syncEvent (appConfig : String → CalendarSyncConfig) (getResult : Except String Event)
    (calendarId : String) (event : Event) : List GatewayCall × Option String :=
  let getCall := GatewayCall.get "primary" event.id
  match primaryCopyResult getResult with
  | .error msg => ([getCall], some msg)
  | .ok primaryCopy =>
    if suppressCond calendarId event then
      (getCall :: suppressBranch primaryCopy, none)
    else
      (getCall :: mirrorBranch appConfig calendarId event primaryCopy, none)

/-- `deleteEvent` of the source: unconditionally attempt to remove the
primary copy with the source event's id; every error is caught (`Not Found`
returns, others are logged), so it never throws. -/
def deleteEvent (event : Event) : List GatewayCall × Option String :=
  ([.remove "primary" event.id], none)

/-- The JavaScript `Date` value, reduced to the fields `getRelativeDate`
manipulates: the date part as a day count and the local time of day.
`setDate(getDate() + n)` normalises to a plain day shift. -/
structure JsDate where
  day : Int
  hour : Int
  minute : Int
  second : Int
  ms : Int
deriving DecidableEq

/-- `getRelativeDate` of the source: shift the current date by `daysOffset`
days, then force the time of day to `hour:00:00.000`. -/
def getRelativeDate (now : JsDate) (daysOffset : Int) (hour : Int) : JsDate :=
  ⟨now.day + daysOffset, hour, 0, 0, 0⟩

/-- An injective textual rendering standing in for `Date.toISOString`. -/
def isoString (d : JsDate) : String :=
  toString d.day ++ "T" ++ toString d.hour ++ ":" ++ toString d.minute ++ ":"
    ++ toString d.second ++ "." ++ toString d.ms

/-- The options object passed to `Calendar.Events.list`. -/
structure EventsListOptions where
  maxResults : Option Nat := none
  syncToken : Option String := none
  timeMin : Option String := none
  pageToken : Option String := none
deriving DecidableEq

/-- One outcome of a `Calendar.Events.list` call: a page (items, next page
token, next sync token) or a thrown error with its message. -/
inductive ListOutcome where
  | success (items : List Event) (nextPageToken : Option String) (nextSyncToken : Option String)
  | failure (msg : String)
deriving DecidableEq

/-- The error message marking an invalidated sync token; the source tests it
with `endsWith`. -/
def syncTokenInvalidMsg : String :=
  "Sync token is no longer valid, a full sync is required."

/-- A `List` outcome that the source's catch block treats as
cursor-invalid. -/
def isInvalidTokenFailure : ListOutcome → Bool
  | .failure msg => strEndsWith msg syncTokenInvalidMsg
  | _ => false

/-- A successful page whose next-page token is truthy, i.e. a page that
keeps the page loop running. -/
def isContinuingPage : ListOutcome → Bool
  | .success _ nextPageToken _ => jsTruthyStr nextPageToken
  | _ => false

/-- Any successful page. -/
def isSuccessPage : ListOutcome → Bool
  | .success _ _ _ => true
  | _ => false

/-- The user-properties store: a durable mapping from keys to strings.
`getProperty` of an absent key returns a falsy value, embedded as `none`. -/
def Props : Type := String → Option String

/-- `setProperty`.  The stored value mirrors the (optional) value the source
passes; the claims only exercise present values. -/
def propsSet (p : Props) (key : String) (value : Option String) : Props :=
  fun k => if k = key then value else p k

/-- `deleteProperty`. -/
def propsDel (p : Props) (key : String) : Props :=
  fun k => if k = key then none else p k

/-- One observable step of a fetch run: a `list` request with the options it
carried, a callback invocation, or a property write/delete. -/
inductive TraceItem where
  | request (opts : EventsListOptions)
  | dispatch (calendarId : String) (event : Event)
  | setProp (key : String) (value : Option String)
  | delProp (key : String)
deriving DecidableEq

/-- How a fetch run ended: normally, by an uncaught throw, or with the page
loop still demanding a gateway response that the gateway model does not
provide (`incomplete`). -/
inductive RunOutcome where
  | ok
  | thrown (msg : String)
  | incomplete
deriving DecidableEq

/-- The observable result of a fetch run. -/
structure FetchResult where
  trace : List TraceItem
  outcome : RunOutcome
deriving DecidableEq

/-- The events dispatched to the per-event callback, in order. -/
def dispatches (trace : List TraceItem) : List (String × Event) :=
  trace.filterMap fun item =>
    match item with
    | .dispatch calendarId event => some (calendarId, event)
    | _ => none

/-- The options of the `list` requests issued, in order. -/
def requestsOf (trace : List TraceItem) : List EventsListOptions :=
  trace.filterMap fun item =>
    match item with
    | .request opts => some opts
    | _ => none

/-- The property-write (`setProperty`) items of a trace. -/
def setOps (trace : List TraceItem) : List TraceItem :=
  trace.filter fun item =>
    match item with
    | .setProp _ _ => true
    | _ => false

/-- The property-delete (`deleteProperty`) items of a trace. -/
def delOps (trace : List TraceItem) : List TraceItem :=
  trace.filter fun item =>
    match item with
    | .delProp _ => true
    | _ => false

/-- The pre-filter of the page loop: keep events whose `eventType` is not
the out-of-office marker (`event['eventType'] != "outOfOffice"`). -/
def notOutOfOffice (e : Event) : Bool :=
  decide (e.eventType ≠ some "outOfOffice")

/-- `response.items.filter(...).forEach(event => callback(calendarId, event))`:
invoke the callback on each event in order; a callback throw stops the
iteration after the failing invocation.  Returns the invocations made and
the propagated error, if any. -/
def dispatchAll (cb : String → Event → Option String) (calendarId : String) :
    List Event → List (String × Event) × Option String
  | [] => ([], none)
  | e :: es =>
    match cb calendarId e with
    | none =>
      let rest := dispatchAll cb calendarId es
      ((calendarId, e) :: rest.1, rest.2)
    | some msg => ([(calendarId, e)], some msg)

/-- The do/while page loop of `fetchEvents`, driven by the list of gateway
responses it will consume.  On a cursor-invalid failure the source deletes
the stored token and recursively re-enters `fetchEvents` with
`fullSync = true`; since the token is gone, that re-entry builds exactly the
full-sync options again, so the restart continues here with `fullOptions`.
An exhausted response list means the gateway model ends before the loop
does (`incomplete`); the pending request is still recorded. -/
def fetchPages (cb : String → Event → Option String) (calendarId syncTokenKey : String)
    (fullOptions options : EventsListOptions) (pageToken : Option String) (props : Props) :
    List ListOutcome → FetchResult × Props
  | [] => (⟨[.request { options with pageToken := pageToken }], .incomplete⟩, props)
  | r :: rest =>
    let req : EventsListOptions := { options with pageToken := pageToken }
    match r with
    | .failure msg =>
      if strEndsWith msg syncTokenInvalidMsg then
        let props1 := propsDel props syncTokenKey
        let inner := fetchPages cb calendarId syncTokenKey fullOptions fullOptions none props1 rest
        (⟨.request req :: .delProp syncTokenKey :: inner.1.trace, inner.1.outcome⟩, inner.2)
      else
        (⟨[.request req], .thrown "Error while listing events"⟩, props)
    | .success items nextPageToken nextSyncToken =>
      let qualifying := items.filter notOutOfOffice
      let dispatched := dispatchAll cb calendarId qualifying
      let dispatchItems := dispatched.1.map fun ce => TraceItem.dispatch ce.1 ce.2
      match dispatched.2 with
      | some msg => (⟨.request req :: dispatchItems, .thrown msg⟩, props)
      | none =>
        if jsTruthyStr nextPageToken then
          let inner := fetchPages cb calendarId syncTokenKey fullOptions options nextPageToken props rest
          (⟨.request req :: (dispatchItems ++ inner.1.trace), inner.1.outcome⟩, inner.2)
        else
          (⟨.request req :: (dispatchItems ++ [.setProp syncTokenKey nextSyncToken]), .ok⟩,
            propsSet props syncTokenKey nextSyncToken)

/-- `fetchEvents` of the source.  `now` stands for the current date read by
`getRelativeDate`; the gateway is modelled by the successive outcomes of the
`Calendar.Events.list` calls. -/
def fetchEvents (calendarId : String) (cb : String → Event → Option String) (fullSync : Bool)
    (now : JsDate) (props : Props) (responses : List ListOutcome) : FetchResult × Props :=
  let syncTokenKey := "syncToken/" ++ calendarId
  let syncToken := props syncTokenKey
  let fullOptions : EventsListOptions :=
    { maxResults := some 100, timeMin := some (isoString (getRelativeDate now (-30) 0)) }
  let options : EventsListOptions :=
    if jsTruthyStr syncToken && !fullSync then { maxResults := some 100, syncToken := syncToken }
    else fullOptions
  fetchPages cb calendarId syncTokenKey fullOptions options none props responses

/-- The per-event callback `syncEvent` induces, given an oracle `g` mapping
an event id to the outcome of `Events.get('primary', id)`. -/
def syncEventCb (appConfig : String → CalendarSyncConfig) (g : String → Except String Event) :
    String → Event → Option String :=
  fun calendarId event => (syncEvent appConfig (g event.id) calendarId event).2

/-- The gateway calls a sync run issues: the concatenation, over the events
dispatched by the fetcher, of the calls `syncEvent` makes for each. -/
def syncRunCalls (appConfig : String → CalendarSyncConfig) (g : String → Except String Event)
    (trace : List TraceItem) : List GatewayCall :=
  (dispatches trace).flatMap fun ce => (syncEvent appConfig (g ce.2.id) ce.1 ce.2).1

/-- The callback `deleteEvent` induces; it never throws. -/
def deleteEventCb : String → Event → Option String :=
  fun _ event => (deleteEvent event).2

/-- `removeAllEvents` of the source: for every configured calendar, in
order, run `fetchEvents` with the `deleteEvent` callback and `fullSync`
forced.  `appConfig` is the configuration object's entry list in iteration
order; `gw` gives each calendar's gateway responses. -/
def removeAllEvents (appConfig : List (String × CalendarSyncConfig)) (now : JsDate)
    (gw : String → List ListOutcome) (props : Props) : List (String × FetchResult) × Props :=
  match appConfig with
  | [] => ([], props)
  | (calendarId, _) :: rest =>
    let this := fetchEvents calendarId deleteEventCb true now props (gw calendarId)
    let more := removeAllEvents rest now gw this.2
    ((calendarId, this.1) :: more.1, more.2)

/-! ## Trace algebra -/

theorem setOps_nil : setOps [] = [] := rfl

theorem delOps_nil : delOps [] = [] := rfl

theorem dispatches_nil : dispatches [] = [] := rfl

theorem requestsOf_nil : requestsOf [] = [] := rfl

theorem setOps_cons_request (o : EventsListOptions) (l : List TraceItem) :
    setOps (.request o :: l) = setOps l := rfl

theorem setOps_cons_dispatch (c : String) (e : Event) (l : List TraceItem) :
    setOps (.dispatch c e :: l) = setOps l := rfl

theorem setOps_cons_del (k : String) (l : List TraceItem) :
    setOps (.delProp k :: l) = setOps l := rfl

theorem setOps_cons_set (k : String) (v : Option String) (l : List TraceItem) :
    setOps (.setProp k v :: l) = .setProp k v :: setOps l := rfl

theorem setOps_append (l₁ l₂ : List TraceItem) :
    setOps (l₁ ++ l₂) = setOps l₁ ++ setOps l₂ :=
  List.filter_append ..

theorem delOps_cons_request (o : EventsListOptions) (l : List TraceItem) :
    delOps (.request o :: l) = delOps l := rfl

theorem delOps_cons_dispatch (c : String) (e : Event) (l : List TraceItem) :
    delOps (.dispatch c e :: l) = delOps l := rfl

theorem delOps_cons_del (k : String) (l : List TraceItem) :
    delOps (.delProp k :: l) = .delProp k :: delOps l := rfl

theorem delOps_cons_set (k : String) (v : Option String) (l : List TraceItem) :
    delOps (.setProp k v :: l) = delOps l := rfl

theorem delOps_append (l₁ l₂ : List TraceItem) :
    delOps (l₁ ++ l₂) = delOps l₁ ++ delOps l₂ :=
  List.filter_append ..

theorem dispatches_cons_request (o : EventsListOptions) (l : List TraceItem) :
    dispatches (.request o :: l) = dispatches l := rfl

theorem dispatches_cons_dispatch (c : String) (e : Event) (l : List TraceItem) :
    dispatches (.dispatch c e :: l) = (c, e) :: dispatches l := rfl

theorem dispatches_cons_del (k : String) (l : List TraceItem) :
    dispatches (.delProp k :: l) = dispatches l := rfl

theorem dispatches_cons_set (k : String) (v : Option String) (l : List TraceItem) :
    dispatches (.setProp k v :: l) = dispatches l := rfl

theorem dispatches_append (l₁ l₂ : List TraceItem) :
    dispatches (l₁ ++ l₂) = dispatches l₁ ++ dispatches l₂ :=
  List.filterMap_append ..

theorem requestsOf_cons_request (o : EventsListOptions) (l : List TraceItem) :
    requestsOf (.request o :: l) = o :: requestsOf l := rfl

theorem requestsOf_cons_dispatch (c : String) (e : Event) (l : List TraceItem) :
    requestsOf (.dispatch c e :: l) = requestsOf l := rfl

theorem requestsOf_cons_del (k : String) (l : List TraceItem) :
    requestsOf (.delProp k :: l) = requestsOf l := rfl

theorem requestsOf_cons_set (k : String) (v : Option String) (l : List TraceItem) :
    requestsOf (.setProp k v :: l) = requestsOf l := rfl

theorem requestsOf_append (l₁ l₂ : List TraceItem) :
    requestsOf (l₁ ++ l₂) = requestsOf l₁ ++ requestsOf l₂ :=
  List.filterMap_append ..

theorem setOps_map_dispatch (ds : List (String × Event)) :
    setOps (ds.map fun ce => TraceItem.dispatch ce.1 ce.2) = [] := by
  induction ds with
  | nil => rfl
  | cons a l ih => simpa [setOps_cons_dispatch] using ih

theorem delOps_map_dispatch (ds : List (String × Event)) :
    delOps (ds.map fun ce => TraceItem.dispatch ce.1 ce.2) = [] := by
  induction ds with
  | nil => rfl
  | cons a l ih => simpa [delOps_cons_dispatch] using ih

theorem requestsOf_map_dispatch (ds : List (String × Event)) :
    requestsOf (ds.map fun ce => TraceItem.dispatch ce.1 ce.2) = [] := by
  induction ds with
  | nil => rfl
  | cons a l ih => simpa [requestsOf_cons_dispatch] using ih

theorem setOps_map_dispatch2 (c : String) (l : List Event) :
    setOps (l.map fun e => TraceItem.dispatch c e) = [] := by
  induction l with
  | nil => rfl
  | cons a t ih => simpa [setOps_cons_dispatch] using ih

theorem delOps_map_dispatch2 (c : String) (l : List Event) :
    delOps (l.map fun e => TraceItem.dispatch c e) = [] := by
  induction l with
  | nil => rfl
  | cons a t ih => simpa [delOps_cons_dispatch] using ih

theorem requestsOf_map_dispatch2 (c : String) (l : List Event) :
    requestsOf (l.map fun e => TraceItem.dispatch c e) = [] := by
  induction l with
  | nil => rfl
  | cons a t ih => simpa [requestsOf_cons_dispatch] using ih

theorem dispatches_map_dispatch (ds : List (String × Event)) :
    dispatches (ds.map fun ce => TraceItem.dispatch ce.1 ce.2) = ds := by
  induction ds with
  | nil => rfl
  | cons a l ih => simp [dispatches_cons_dispatch, ih]

/-- Every invocation `dispatchAll` records uses the given calendar id and an
event of the input list. -/
theorem dispatchAll_mem (cb : String → Event → Option String) (c : String) :
    ∀ (l : List Event), ∀ ce ∈ (dispatchAll cb c l).1, ce.1 = c ∧ ce.2 ∈ l := by
  intro l
  induction l with
  | nil => intro ce h; simp [dispatchAll] at h
  | cons e es ih =>
    intro ce h
    cases hcb : cb c e with
    | none =>
      simp only [dispatchAll, hcb] at h
      rcases List.mem_cons.mp h with h | h
      · subst h; exact ⟨rfl, List.mem_cons_self ..⟩
      · exact ⟨(ih ce h).1, List.mem_cons_of_mem _ (ih ce h).2⟩
    | some msg =>
      simp only [dispatchAll, hcb] at h
      rcases List.mem_singleton.mp h with h
      subst h; exact ⟨rfl, List.mem_cons_self ..⟩

/-- With a callback that never throws, `dispatchAll` invokes the callback on
every event, in order, and propagates no error. -/
theorem dispatchAll_ok (cb : String → Event → Option String) (c : String)
    (hcb : ∀ c' e, cb c' e = none) :
    ∀ (l : List Event), dispatchAll cb c l = (l.map fun e => (c, e), none) := by
  intro l
  induction l with
  | nil => rfl
  | cons e es ih => simp [dispatchAll, hcb, ih]

/-! ## The fetch-loop invariant -/

/-- The main invariant of the page loop: properties other than the cursor
key are untouched; a normal finish writes the cursor exactly once, as the
very last trace step; any other finish writes no cursor and leaves the
stored cursor either unchanged or deleted; dispatched events carry the
calendar id and survived the out-of-office filter; every request is built
from the entry options or from the full-sync options. -/
def FetchInvariant (calendarId skey : String) (options fullOptions : EventsListOptions)
    (props : Props) (R : FetchResult × Props) : Prop :=
  (∀ k, k ≠ skey → R.2 k = props k) ∧
  (R.1.outcome = .ok →
    ∃ t v, R.1.trace = t ++ [.setProp skey v] ∧ setOps t = [] ∧ R.2 skey = v) ∧
  (R.1.outcome ≠ .ok →
    setOps R.1.trace = [] ∧ (R.2 skey = props skey ∨ R.2 skey = none)) ∧
  (∀ ce ∈ dispatches R.1.trace, ce.1 = calendarId ∧ ce.2.eventType ≠ some "outOfOffice") ∧
  (∀ o ∈ requestsOf R.1.trace,
    (∃ pt, o = { options with pageToken := pt }) ∨ (∃ pt, o = { fullOptions with pageToken := pt }))

theorem fetchPages_inv (cb : String → Event → Option String) (calendarId skey : String)
    (fullOptions : EventsListOptions) :
    ∀ (rs : List ListOutcome) (options : EventsListOptions) (pageToken : Option String)
      (props : Props),
      FetchInvariant calendarId skey options fullOptions props
        (fetchPages cb calendarId skey fullOptions options pageToken props rs) := by
  intro rs
  induction rs with
  | nil =>
    intro options pageToken props
    refine ⟨fun k _ => rfl, ?_, ?_, ?_, ?_⟩
    · intro h; cases h
    · intro _
      exact ⟨rfl, Or.inl rfl⟩
    · intro ce h; simp [fetchPages, dispatches] at h
    · intro o ho
      simp only [fetchPages, requestsOf_cons_request] at ho
      rcases List.mem_cons.mp ho with h | h
      · exact Or.inl ⟨pageToken, h⟩
      · simp [requestsOf] at h
  | cons r rest ih =>
    intro options pageToken props
    cases r with
    | failure msg =>
      cases hmsg : strEndsWith msg syncTokenInvalidMsg with
      | false =>
        have hR : fetchPages cb calendarId skey fullOptions options pageToken props
            (ListOutcome.failure msg :: rest) =
            (⟨[.request { options with pageToken := pageToken }],
              .thrown "Error while listing events"⟩, props) := by
          simp [fetchPages, hmsg]
        refine ⟨fun k _ => by rw [hR], ?_, ?_, ?_, ?_⟩
        · intro h; rw [hR] at h; cases h
        · intro _
          rw [hR]
          exact ⟨rfl, Or.inl rfl⟩
        · intro ce h; rw [hR] at h; simp [dispatches] at h
        · intro o ho
          rw [hR] at ho
          simp only [requestsOf_cons_request] at ho
          rcases List.mem_cons.mp ho with h | h
          · exact Or.inl ⟨pageToken, h⟩
          · simp [requestsOf] at h
      | true =>
        have hR : fetchPages cb calendarId skey fullOptions options pageToken props
            (ListOutcome.failure msg :: rest) =
            (⟨.request { options with pageToken := pageToken } :: .delProp skey ::
                (fetchPages cb calendarId skey fullOptions fullOptions none
                  (propsDel props skey) rest).1.trace,
              (fetchPages cb calendarId skey fullOptions fullOptions none
                (propsDel props skey) rest).1.outcome⟩,
             (fetchPages cb calendarId skey fullOptions fullOptions none
               (propsDel props skey) rest).2) := by
          simp [fetchPages, hmsg]
        rcases ih fullOptions none (propsDel props skey) with ⟨hoff, hok, hnok, hdisp, hreq⟩
        refine ⟨?_, ?_, ?_, ?_, ?_⟩
        · intro k hk
          rw [hR]
          have h1 := hoff k hk
          simpa [propsDel, hk] using h1
        · intro h
          rw [hR] at h ⊢
          rcases hok h with ⟨t, v, htr, hset, hv⟩
          refine ⟨.request { options with pageToken := pageToken } :: .delProp skey :: t, v,
            ?_, ?_, hv⟩
          · simp [htr]
          · simp [setOps_cons_request, setOps_cons_del, hset]
        · intro h
          rw [hR] at h ⊢
          rcases hnok h with ⟨hset, hp⟩
          refine ⟨by simp [setOps_cons_request, setOps_cons_del, hset], Or.inr ?_⟩
          rcases hp with hp | hp
          · rw [hp]; simp [propsDel]
          · exact hp
        · intro ce h
          rw [hR] at h
          simp only [dispatches_cons_request, dispatches_cons_del] at h
          exact hdisp ce h
        · intro o ho
          rw [hR] at ho
          simp only [requestsOf_cons_request, requestsOf_cons_del] at ho
          rcases List.mem_cons.mp ho with h | h
          · exact Or.inl ⟨pageToken, h⟩
          · rcases hreq o h with h' | h' <;> exact Or.inr h'
    | success items npt nst =>
      rcases hda : dispatchAll cb calendarId (items.filter notOutOfOffice) with ⟨ds, derr⟩
      have hds : ∀ ce ∈ ds, ce.1 = calendarId ∧ ce.2.eventType ≠ some "outOfOffice" := by
        intro ce hce
        have hmem := dispatchAll_mem cb calendarId
          (items.filter notOutOfOffice) ce (by rw [hda]; exact hce)
        refine ⟨hmem.1, ?_⟩
        have h2 := (List.mem_filter.mp hmem.2).2
        simpa [notOutOfOffice] using h2
      cases derr with
      | some m =>
        have hR : fetchPages cb calendarId skey fullOptions options pageToken props
            (ListOutcome.success items npt nst :: rest) =
            (⟨.request { options with pageToken := pageToken } ::
                (ds.map fun ce => TraceItem.dispatch ce.1 ce.2), .thrown m⟩, props) := by
          simp [fetchPages, hda]
        refine ⟨fun k _ => by rw [hR], ?_, ?_, ?_, ?_⟩
        · intro h; rw [hR] at h; cases h
        · intro _
          rw [hR]
          exact ⟨by simp [setOps_cons_request, setOps_map_dispatch], Or.inl rfl⟩
        · intro ce h
          rw [hR] at h
          simp only [dispatches_cons_request, dispatches_map_dispatch] at h
          exact hds ce h
        · intro o ho
          rw [hR] at ho
          simp only [requestsOf_cons_request, requestsOf_map_dispatch] at ho
          rcases List.mem_cons.mp ho with h | h
          · exact Or.inl ⟨pageToken, h⟩
          · simp at h
      | none =>
        cases hnpt : jsTruthyStr npt with
        | true =>
          have hR : fetchPages cb calendarId skey fullOptions options pageToken props
              (ListOutcome.success items npt nst :: rest) =
              (⟨.request { options with pageToken := pageToken } ::
                  ((ds.map fun ce => TraceItem.dispatch ce.1 ce.2) ++
                    (fetchPages cb calendarId skey fullOptions options npt props rest).1.trace),
                (fetchPages cb calendarId skey fullOptions options npt props rest).1.outcome⟩,
               (fetchPages cb calendarId skey fullOptions options npt props rest).2) := by
            simp [fetchPages, hda, hnpt]
          rcases ih options npt props with ⟨hoff, hok, hnok, hdisp, hreq⟩
          refine ⟨?_, ?_, ?_, ?_, ?_⟩
          · intro k hk
            rw [hR]
            exact hoff k hk
          · intro h
            rw [hR] at h ⊢
            rcases hok h with ⟨t, v, htr, hset, hv⟩
            refine ⟨.request { options with pageToken := pageToken } ::
              ((ds.map fun ce => TraceItem.dispatch ce.1 ce.2) ++ t), v, ?_, ?_, hv⟩
            · simp [htr]
            · simp [setOps_cons_request, setOps_append, setOps_map_dispatch, hset]
          · intro h
            rw [hR] at h ⊢
            rcases hnok h with ⟨hset, hp⟩
            exact ⟨by simp [setOps_cons_request, setOps_append, setOps_map_dispatch, hset], hp⟩
          · intro ce h
            rw [hR] at h
            simp only [dispatches_cons_request, dispatches_append,
              dispatches_map_dispatch] at h
            rcases List.mem_append.mp h with h | h
            · exact hds ce h
            · exact hdisp ce h
          · intro o ho
            rw [hR] at ho
            simp only [requestsOf_cons_request, requestsOf_append,
              requestsOf_map_dispatch, List.nil_append] at ho
            rcases List.mem_cons.mp ho with h | h
            · exact Or.inl ⟨pageToken, h⟩
            · exact hreq o h
        | false =>
          have hR : fetchPages cb calendarId skey fullOptions options pageToken props
              (ListOutcome.success items npt nst :: rest) =
              (⟨.request { options with pageToken := pageToken } ::
                  ((ds.map fun ce => TraceItem.dispatch ce.1 ce.2) ++ [.setProp skey nst]),
                .ok⟩, propsSet props skey nst) := by
            simp [fetchPages, hda, hnpt]
          refine ⟨?_, ?_, ?_, ?_, ?_⟩
          · intro k hk
            rw [hR]
            simp [propsSet, hk]
          · intro _
            rw [hR]
            refine ⟨.request { options with pageToken := pageToken } ::
              (ds.map fun ce => TraceItem.dispatch ce.1 ce.2), nst, by simp, ?_, ?_⟩
            · simp [setOps_cons_request, setOps_map_dispatch]
            · simp [propsSet]
          · intro h; rw [hR] at h; simp at h
          · intro ce h
            rw [hR] at h
            simp only [dispatches_cons_request, dispatches_append,
              dispatches_map_dispatch] at h
            rcases List.mem_append.mp h with h | h
            · exact hds ce h
            · simp [dispatches] at h
          · intro o ho
            rw [hR] at ho
            simp only [requestsOf_cons_request, requestsOf_append,
              requestsOf_map_dispatch, List.nil_append] at ho
            rcases List.mem_cons.mp ho with h | h
            · exact Or.inl ⟨pageToken, h⟩
            · simp [requestsOf] at h


theorem setOps_eq_nil_no_set {l : List TraceItem} (h : setOps l = []) :
    ∀ item ∈ l, ∀ k v, item ≠ TraceItem.setProp k v := by
  intro item hi k v heq
  subst heq
  have h2 := List.filter_eq_nil_iff.mp h _ hi
  simp at h2

/-- The full-sync options object `fetchEvents` builds when no usable cursor
exists: page size 100 and a lower time bound 30 days back, truncated to
midnight by `getRelativeDate(-30, 0)`. -/
def fullSyncOptions (now : JsDate) : EventsListOptions :=
  { maxResults := some 100, timeMin := some (isoString (getRelativeDate now (-30) 0)) }

/-- The incremental options object `fetchEvents` builds from a stored
cursor: page size 100 and the cursor, no time bound. -/
def incrementalOptions (props : Props) (calendarId : String) : EventsListOptions :=
  { maxResults := some 100, syncToken := props ("syncToken/" ++ calendarId) }

theorem fetchEvents_eq (calendarId : String) (cb : String → Event → Option String)
    (fullSync : Bool) (now : JsDate) (props : Props) (responses : List ListOutcome) :
    fetchEvents calendarId cb fullSync now props responses =
      fetchPages cb calendarId ("syncToken/" ++ calendarId) (fullSyncOptions now)
        (if jsTruthyStr (props ("syncToken/" ++ calendarId)) && !fullSync
         then incrementalOptions props calendarId
         else fullSyncOptions now) none props responses := by
  rw [fetchEvents, fullSyncOptions, incrementalOptions]

theorem fetchEvents_inv (calendarId : String) (cb : String → Event → Option String)
    (fullSync : Bool) (now : JsDate) (props : Props) (responses : List ListOutcome) :
    FetchInvariant calendarId ("syncToken/" ++ calendarId)
      (if jsTruthyStr (props ("syncToken/" ++ calendarId)) && !fullSync
       then incrementalOptions props calendarId
       else fullSyncOptions now)
      (fullSyncOptions now) props
      (fetchEvents calendarId cb fullSync now props responses) := by
  rw [fetchEvents_eq]
  exact fetchPages_inv cb calendarId ("syncToken/" ++ calendarId) (fullSyncOptions now)
    responses _ none props

/-- Every branch of the page loop records its own `list` request first. -/
theorem fetchPages_trace_head (cb : String → Event → Option String) (calendarId skey : String)
    (fullOptions options : EventsListOptions) (pageToken : Option String) (props : Props)
    (rs : List ListOutcome) :
    (fetchPages cb calendarId skey fullOptions options pageToken props rs).1.trace.head? =
      some (.request { options with pageToken := pageToken }) := by
  cases rs with
  | nil => rfl
  | cons r rest =>
    cases r with
    | failure msg => cases hmsg : strEndsWith msg syncTokenInvalidMsg <;> simp [fetchPages, hmsg]
    | success items npt nst =>
      rcases hda : dispatchAll cb calendarId (items.filter notOutOfOffice) with ⟨ds, derr⟩
      cases derr with
      | some m => simp [fetchPages, hda]
      | none => cases hnpt : jsTruthyStr npt <;> simp [fetchPages, hda, hnpt]

theorem requestsOf_head {l : List TraceItem} {o : EventsListOptions}
    (h : l.head? = some (.request o)) : (requestsOf l).head? = some o := by
  cases l with
  | nil => cases h
  | cons a l =>
    have ha : a = .request o := by simpa using h
    subst ha
    rfl

/-- The first `list` request of a fetch run: the stored cursor with no time
bound when one exists and a full sync was not forced, the 30-day full-sync
window otherwise. -/
theorem fetchEvents_first_request (calendarId : String) (cb : String → Event → Option String)
    (fullSync : Bool) (now : JsDate) (props : Props) (responses : List ListOutcome) :
    (requestsOf (fetchEvents calendarId cb fullSync now props responses).1.trace).head? =
      some (if jsTruthyStr (props ("syncToken/" ++ calendarId)) && !fullSync
            then { maxResults := some 100, syncToken := props ("syncToken/" ++ calendarId),
                   timeMin := none, pageToken := none }
            else { maxResults := some 100, syncToken := none,
                   timeMin := some (isoString (getRelativeDate now (-30) 0)),
                   pageToken := none }) := by
  rw [fetchEvents_eq]
  have h := fetchPages_trace_head cb calendarId ("syncToken/" ++ calendarId)
    (fullSyncOptions now)
    (if jsTruthyStr (props ("syncToken/" ++ calendarId)) && !fullSync
     then incrementalOptions props calendarId
     else fullSyncOptions now) none props responses
  have h2 := requestsOf_head h
  cases hc : jsTruthyStr (props ("syncToken/" ++ calendarId)) && !fullSync <;>
    simpa [hc, incrementalOptions, fullSyncOptions] using h2

/-- The page-token chain the page loop is expected to follow, given the
successive page responses. -/
def chainFrom : List ListOutcome → List (Option String)
  | [] => []
  | .success _ nextPageToken _ :: rest =>
    if jsTruthyStr nextPageToken then nextPageToken :: chainFrom rest else []
  | .failure _ :: _ => []

/-- With a non-throwing callback and successful pages, the requests issued
follow the page-token chain: the first carries the entry token, each later
one the previous response's next-page token. -/
theorem fetchPages_pageToken_chain (cb : String → Event → Option String)
    (calendarId skey : String) (fullOptions : EventsListOptions)
    (hcb : ∀ c e, cb c e = none) :
    ∀ (rs : List ListOutcome) (options : EventsListOptions) (pageToken : Option String)
      (props : Props), (∀ r ∈ rs, isSuccessPage r = true) →
      (requestsOf (fetchPages cb calendarId skey fullOptions options pageToken props rs).1.trace).map
        (fun o => o.pageToken) = pageToken :: chainFrom rs := by
  intro rs
  induction rs with
  | nil =>
    intro options pageToken props _
    simp [fetchPages, requestsOf_cons_request, requestsOf_nil, chainFrom]
  | cons r rest ih =>
    intro options pageToken props hs
    cases r with
    | failure msg =>
      have := hs _ (List.mem_cons_self ..)
      simp [isSuccessPage] at this
    | success items npt nst =>
      have hda := dispatchAll_ok cb calendarId hcb (items.filter notOutOfOffice)
      cases hnpt : jsTruthyStr npt with
      | true =>
        have hR : fetchPages cb calendarId skey fullOptions options pageToken props
            (ListOutcome.success items npt nst :: rest) =
            (⟨.request { options with pageToken := pageToken } ::
                ((((items.filter notOutOfOffice).map fun e => (calendarId, e)).map
                    fun ce => TraceItem.dispatch ce.1 ce.2) ++
                  (fetchPages cb calendarId skey fullOptions options npt props rest).1.trace),
              (fetchPages cb calendarId skey fullOptions options npt props rest).1.outcome⟩,
             (fetchPages cb calendarId skey fullOptions options npt props rest).2) := by
          simp [fetchPages, hda, hnpt]
        rw [hR]
        simp only [requestsOf_cons_request, requestsOf_append, requestsOf_map_dispatch,
          List.nil_append, List.map_cons]
        rw [ih options npt props (fun r hr => hs r (List.mem_cons_of_mem _ hr))]
        simp [chainFrom, hnpt]
      | false =>
        have hR : fetchPages cb calendarId skey fullOptions options pageToken props
            (ListOutcome.success items npt nst :: rest) =
            (⟨.request { options with pageToken := pageToken } ::
                ((((items.filter notOutOfOffice).map fun e => (calendarId, e)).map
                    fun ce => TraceItem.dispatch ce.1 ce.2) ++ [.setProp skey nst]),
              .ok⟩, propsSet props skey nst) := by
          simp [fetchPages, hda, hnpt]
        rw [hR]
        simp [requestsOf_cons_request, requestsOf_append, requestsOf_map_dispatch,
          requestsOf_map_dispatch2, Function.comp_def, requestsOf_cons_set, requestsOf_nil,
          chainFrom, hnpt]

/-- A page sequence with no cursor-invalid failure never deletes the stored
cursor. -/
theorem fetchPages_no_invalid_no_del (cb : String → Event → Option String)
    (calendarId skey : String) (fullOptions : EventsListOptions) :
    ∀ (rs : List ListOutcome) (options : EventsListOptions) (pageToken : Option String)
      (props : Props), (∀ r ∈ rs, isInvalidTokenFailure r = false) →
      delOps (fetchPages cb calendarId skey fullOptions options pageToken props rs).1.trace = [] := by
  intro rs
  induction rs with
  | nil => intro options pageToken props _; rfl
  | cons r rest ih =>
    intro options pageToken props hs
    have hrest : ∀ r ∈ rest, isInvalidTokenFailure r = false :=
      fun r hr => hs r (List.mem_cons_of_mem _ hr)
    cases r with
    | failure msg =>
      have hmsg : strEndsWith msg syncTokenInvalidMsg = false := by
        simpa [isInvalidTokenFailure] using hs _ (List.mem_cons_self ..)
      simp [fetchPages, hmsg, delOps_cons_request, delOps_nil]
    | success items npt nst =>
      rcases hda : dispatchAll cb calendarId (items.filter notOutOfOffice) with ⟨ds, derr⟩
      cases derr with
      | some m => simp [fetchPages, hda, delOps_cons_request, delOps_map_dispatch]
      | none =>
        cases hnpt : jsTruthyStr npt with
        | true =>
          simp only [fetchPages, hda, hnpt, if_true]
          simp [delOps_cons_request, delOps_append, delOps_map_dispatch,
            ih options npt props hrest]
        | false =>
          simp [fetchPages, hda, hnpt, delOps_cons_request, delOps_append,
            delOps_map_dispatch, delOps_cons_set, delOps_nil]

/-- An incremental page sequence that runs into a cursor-invalid failure
(after any number of continuing pages, with a non-throwing callback) deletes
the stored cursor exactly once, provided the restarted full-sync sequence
sees no further cursor-invalid failure. -/
theorem fetchPages_invalid_recovery_del (cb : String → Event → Option String)
    (calendarId skey : String) (fullOptions : EventsListOptions)
    (hcb : ∀ c e, cb c e = none) :
    ∀ (pre : List ListOutcome) (options : EventsListOptions) (pageToken : Option String)
      (props : Props) (msg : String) (post : List ListOutcome),
      (∀ r ∈ pre, isContinuingPage r = true) →
      strEndsWith msg syncTokenInvalidMsg = true →
      (∀ r ∈ post, isInvalidTokenFailure r = false) →
      delOps (fetchPages cb calendarId skey fullOptions options pageToken props
        (pre ++ .failure msg :: post)).1.trace = [.delProp skey] := by
  intro pre
  induction pre with
  | nil =>
    intro options pageToken props msg post _ hmsg hpost
    simp only [List.nil_append]
    simp only [fetchPages, hmsg, if_true]
    simp [delOps_cons_request, delOps_cons_del,
      fetchPages_no_invalid_no_del cb calendarId skey fullOptions post fullOptions none
        (propsDel props skey) hpost]
  | cons p pre' ih =>
    intro options pageToken props msg post hpre hmsg hpost
    have hpre' : ∀ r ∈ pre', isContinuingPage r = true :=
      fun r hr => hpre r (List.mem_cons_of_mem _ hr)
    cases p with
    | failure m =>
      have := hpre _ (List.mem_cons_self ..)
      simp [isContinuingPage] at this
    | success items npt nst =>
      have hnpt : jsTruthyStr npt = true := by
        simpa [isContinuingPage] using hpre _ (List.mem_cons_self ..)
      have hda := dispatchAll_ok cb calendarId hcb (items.filter notOutOfOffice)
      simp only [List.cons_append]
      simp only [fetchPages, hda, hnpt, if_true]
      simp [delOps_cons_request, delOps_append, delOps_map_dispatch, delOps_map_dispatch2,
        Function.comp_def, ih options npt props msg post hpre' hmsg hpost]

/-- A page sequence that runs into a failure that is not cursor-invalid
(after any number of continuing pages, with a non-throwing callback) throws
the wrapped listing error, writes no cursor and leaves the property store
untouched. -/
theorem fetchPages_other_error (cb : String → Event → Option String)
    (calendarId skey : String) (fullOptions : EventsListOptions)
    (hcb : ∀ c e, cb c e = none) :
    ∀ (pre : List ListOutcome) (options : EventsListOptions) (pageToken : Option String)
      (props : Props) (msg : String) (post : List ListOutcome),
      (∀ r ∈ pre, isContinuingPage r = true) →
      strEndsWith msg syncTokenInvalidMsg = false →
      (fetchPages cb calendarId skey fullOptions options pageToken props
          (pre ++ .failure msg :: post)).1.outcome = .thrown "Error while listing events" ∧
      setOps (fetchPages cb calendarId skey fullOptions options pageToken props
        (pre ++ .failure msg :: post)).1.trace = [] ∧
      (fetchPages cb calendarId skey fullOptions options pageToken props
        (pre ++ .failure msg :: post)).2 = props := by
  intro pre
  induction pre with
  | nil =>
    intro options pageToken props msg post _ hmsg
    simp only [List.nil_append]
    refine ⟨?_, ?_, ?_⟩ <;> simp [fetchPages, hmsg, setOps_cons_request, setOps_nil]
  | cons p pre' ih =>
    intro options pageToken props msg post hpre hmsg
    have hpre' : ∀ r ∈ pre', isContinuingPage r = true :=
      fun r hr => hpre r (List.mem_cons_of_mem _ hr)
    cases p with
    | failure m =>
      have := hpre _ (List.mem_cons_self ..)
      simp [isContinuingPage] at this
    | success items npt nst =>
      have hnpt : jsTruthyStr npt = true := by
        simpa [isContinuingPage] using hpre _ (List.mem_cons_self ..)
      have hda := dispatchAll_ok cb calendarId hcb (items.filter notOutOfOffice)
      rcases ih options npt props msg post hpre' hmsg with ⟨h1, h2, h3⟩
      simp only [List.cons_append]
      simp only [fetchPages, hda, hnpt, if_true]
      exact ⟨h1, by simp [setOps_cons_request, setOps_append, setOps_map_dispatch,
        setOps_map_dispatch2, Function.comp_def, h2], h3⟩

/-! ## Claim C1 -/

/-- Claim C1: the resolved disposition follows the spec's priority rules —
cancelled, then unaccepted invitation (no self-flagged attendee counting as
not accepted), then transparent, give `Suppress`, anything else `Mirror` —
and the reconciler takes the delete branch exactly when the disposition is
`Suppress`. -/
theorem c1_disposition_and_delete_branch (appConfig : String → CalendarSyncConfig)
    (getResult : Except String Event) (calendarId : String) (event : Event) :
    resolveSpec calendarId event = disposition calendarId event ∧
    (disposition calendarId event = .Suppress ↔ suppressCond calendarId event = true) ∧
    (∀ primaryCopy, primaryCopyResult getResult = .ok primaryCopy →
      (syncEvent appConfig getResult calendarId event).1 =
        GatewayCall.get "primary" event.id ::
          (if disposition calendarId event = .Suppress
           then suppressBranch primaryCopy
           else mirrorBranch appConfig calendarId event primaryCopy)) := by
  refine ⟨?_, ?_, ?_⟩
  · cases h1 : isCancelled event <;>
      cases h2 : (isInvitation calendarId event && !isAccepted event) <;>
      cases h3 : isTransparent event <;>
      simp [resolveSpec, disposition, suppressCond, h1, h2, h3]
  · cases h : suppressCond calendarId event <;> simp [disposition, h]
  · intro primaryCopy hpc
    cases h : suppressCond calendarId event <;>
      simp [syncEvent, hpc, disposition, h]

/-- Witness for C1 at a concrete cancelled event with no stored mirror. -/
theorem c1_disposition_and_delete_branch_witness :
    (syncEvent (fun _ => {}) (Except.error "Not Found") "cal"
        { id := "e1", status := some "cancelled" }).1 =
      GatewayCall.get "primary" ({ id := "e1", status := some "cancelled" } : Event).id ::
        (if disposition "cal" { id := "e1", status := some "cancelled" } = .Suppress
         then suppressBranch none
         else mirrorBranch (fun _ => {}) "cal" { id := "e1", status := some "cancelled" } none) :=
  (c1_disposition_and_delete_branch (fun _ => {}) (Except.error "Not Found") "cal"
    { id := "e1", status := some "cancelled" }).2.2 none rfl

/-! ## Claim C2 -/

/-- A source event whose sequence number differs from its stored mirror's. -/
def evC2 : Event := { id := "e2", summary := some "S", sequence := some 1 }

/-- The stored mirror for `evC2`, at a higher sequence number. -/
def pcC2 : Event := { id := "e2", sequence := some 5 }

/-- Counterexample to claim C2: updating the mirror of `evC2` sends the
*source* event's sequence number (1), not the existing mirror's (5) — the
transformer copies `event.sequence` and the reconciler never overwrites it
with `primaryCopy.sequence`. -/
theorem c2_counterexample :
    (syncEvent (fun _ => {}) (Except.ok pcC2) "cal" evC2).1 =
      [GatewayCall.get "primary" "e2",
        .update (copyEvent evC2 "cal" {}) "primary" "e2"] ∧
    (copyEvent evC2 "cal" {}).sequence = some 1 ∧
    pcC2.sequence = some 5 ∧
    (copyEvent evC2 "cal" {}).sequence ≠ pcC2.sequence := by
  refine ⟨rfl, rfl, rfl, by decide⟩

/-- Claim C2 amended: for a `Mirror` event with an existing, unlocked
mirror, the event sent to the gateway `Update` call carries the *source*
event's sequence number (copied verbatim by the transformer); it equals the
existing mirror's sequence only when the two coincide. -/
theorem c2_update_carries_source_sequence (appConfig : String → CalendarSyncConfig)
    (getResult : Except String Event) (calendarId : String) (event primaryCopy : Event)
    (hget : primaryCopyResult getResult = .ok (some primaryCopy))
    (hlock : primaryCopy.locked ≠ some true)
    (hdisp : disposition calendarId event = .Mirror) :
    (syncEvent appConfig getResult calendarId event).1 =
      [GatewayCall.get "primary" event.id,
        .update (copyEvent event calendarId (appConfig calendarId)) "primary" primaryCopy.id] ∧
    (copyEvent event calendarId (appConfig calendarId)).sequence = event.sequence := by
  have hcond : suppressCond calendarId event = false := by
    cases h : suppressCond calendarId event <;> simp [disposition, h] at hdisp ⊢
  refine ⟨?_, rfl⟩
  simp [syncEvent, hget, hcond, mirrorBranch, hlock]

/-- Witness for the amended C2 at the concrete pair `evC2`, `pcC2`. -/
theorem c2_update_carries_source_sequence_witness :
    (syncEvent (fun _ => {}) (Except.ok pcC2) "cal" evC2).1 =
      [GatewayCall.get "primary" evC2.id,
        .update (copyEvent evC2 "cal" ((fun _ => ({} : CalendarSyncConfig)) "cal")) "primary" pcC2.id] ∧
    (copyEvent evC2 "cal" ((fun _ => ({} : CalendarSyncConfig)) "cal")).sequence = evC2.sequence :=
  c2_update_carries_source_sequence (fun _ => {}) (Except.ok pcC2) "cal" evC2 pcC2 rfl
    (by decide) (by decide)

/-! ## Claim C3 -/

/-- A configuration whose `summary` entry is present but empty. -/
def cfgC3 : CalendarSyncConfig := { summary := some "" }

/-- A source event with a plain summary. -/
def evC3 : Event := { id := "e3", summary := some "Team" }

/-- Counterexample to claim C3: with `config.summary` present but equal to
the empty string, the mirror's summary is *not* `config.summary` — the
source tests `config.summary` for truthiness, so the empty string falls
through to the `titlePrefix` default branch. -/
theorem c3_counterexample :
    cfgC3.summary = some "" ∧
    (copyEvent evC3 "cal" cfgC3).summary = some "[cal] Team" ∧
    (copyEvent evC3 "cal" cfgC3).summary ≠ cfgC3.summary := by
  refine ⟨rfl, rfl, by decide⟩

/-- Claim C3 amended: the mirror summary obeys the precedence with
"present" read as "present and non-empty" (an empty-string `config.summary`
is treated as absent): a non-empty `config.summary` wins; else an unset
`titlePrefix` gives `"[" + calendarId + "] " + summary`; else an explicitly
null `titlePrefix` gives the bare summary; else
`titlePrefix + " " + summary`. -/
theorem c3_summary_precedence (calendarId : String) (cfg : CalendarSyncConfig)
    (event : Event) (s : String) (hs : event.summary = some s) :
    (∀ cs, cfg.summary = some cs → cs ≠ "" →
      (copyEvent event calendarId cfg).summary = some cs) ∧
    ((cfg.summary = none ∨ cfg.summary = some "") → cfg.titlePrefixOpt = .undef →
      (copyEvent event calendarId cfg).summary = some ("[" ++ calendarId ++ "] " ++ s)) ∧
    ((cfg.summary = none ∨ cfg.summary = some "") → cfg.titlePrefixOpt = .null →
      (copyEvent event calendarId cfg).summary = some s) ∧
    (∀ p, (cfg.summary = none ∨ cfg.summary = some "") → cfg.titlePrefixOpt = .val p →
      (copyEvent event calendarId cfg).summary = some (p ++ " " ++ s)) := by
  refine ⟨?_, ?_, ?_, ?_⟩
  · intro cs hcs hne
    simp [copyEvent, jsTruthyStr, hcs, hne]
  · rintro (h | h) ht <;> simp [copyEvent, jsTruthyStr, jsStr, h, ht, hs]
  · rintro (h | h) ht <;> simp [copyEvent, jsTruthyStr, jsStr, h, ht, hs]
  · rintro p (h | h) ht <;> simp [copyEvent, jsTruthyStr, jsStr, h, ht, hs]

/-- Witness for the amended C3: explicit-null `titlePrefix` leaves the
summary bare. -/
theorem c3_summary_precedence_witness :
    (copyEvent { id := "e", summary := some "X" } "cal"
      { titlePrefixOpt := .null }).summary = some "X" :=
  (c3_summary_precedence "cal" { titlePrefixOpt := .null }
    { id := "e", summary := some "X" } "X" rfl).2.2.1 (Or.inl rfl) rfl

/-! ## Claim C7 -/

/-- Claim C7: reconciling a `Suppress`-disposed event issues exactly one
gateway delete when a non-cancelled mirror exists, and zero mutation calls
when no mirror exists or the mirror is already cancelled; with no mirror it
also throws nothing, so repeating it is a no-op. -/
theorem c7_suppress_reconciliation (appConfig : String → CalendarSyncConfig)
    (getResult : Except String Event) (calendarId : String) (event : Event)
    (hsup : disposition calendarId event = .Suppress) :
    (∀ primaryCopy, primaryCopyResult getResult = .ok (some primaryCopy) →
      primaryCopy.status ≠ some "cancelled" →
      (syncEvent appConfig getResult calendarId event).1.filter isMutation =
        [.remove "primary" primaryCopy.id]) ∧
    (∀ primaryCopy, primaryCopyResult getResult = .ok (some primaryCopy) →
      primaryCopy.status = some "cancelled" →
      (syncEvent appConfig getResult calendarId event).1.filter isMutation = []) ∧
    (primaryCopyResult getResult = .ok none →
      (syncEvent appConfig getResult calendarId event).1.filter isMutation = [] ∧
      (syncEvent appConfig getResult calendarId event).2 = none) := by
  have hcond : suppressCond calendarId event = true := by
    cases h : suppressCond calendarId event <;> simp [disposition, h] at hsup ⊢
  refine ⟨?_, ?_, ?_⟩
  · intro primaryCopy hget hst
    simp [syncEvent, hget, hcond, suppressBranch, hst, isMutation, List.filter]
  · intro primaryCopy hget hst
    simp [syncEvent, hget, hcond, suppressBranch, hst, isMutation, List.filter]
  · intro hget
    simp [syncEvent, hget, hcond, suppressBranch, isMutation, List.filter]

/-- A concrete cancelled source event. -/
def evC7 : Event := { id := "e7", status := some "cancelled" }

/-- The stored, not-yet-cancelled mirror of `evC7`. -/
def pcC7 : Event := { id := "e7", status := some "confirmed" }

/-- Witness for C7: the cancelled `evC7` with stored mirror `pcC7` issues
exactly the one delete. -/
theorem c7_suppress_reconciliation_witness :
    (syncEvent (fun _ => {}) (Except.ok pcC7) "cal" evC7).1.filter isMutation =
      [.remove "primary" pcC7.id] :=
  (c7_suppress_reconciliation (fun _ => {}) (Except.ok pcC7) "cal" evC7 (by decide)).1
    pcC7 rfl (by decide)

/-! ## Claim C8 -/

/-- Claim C8: reconciling a `Mirror`-disposed event with no existing mirror
issues exactly one create (`import`) call, and the created event keeps the
source identifier, disables reminders with an empty overrides list, and
copies start, end, recurrence, recurringEventId and originalStartTime
unchanged. -/
theorem c8_mirror_creation (appConfig : String → CalendarSyncConfig)
    (getResult : Except String Event) (calendarId : String) (event : Event)
    (hdisp : disposition calendarId event = .Mirror)
    (hget : primaryCopyResult getResult = .ok none) :
    (syncEvent appConfig getResult calendarId event).1.filter isMutation =
      [.importEvent (copyEvent event calendarId (appConfig calendarId)) "primary"] ∧
    (copyEvent event calendarId (appConfig calendarId)).id = event.id ∧
    (copyEvent event calendarId (appConfig calendarId)).reminders = some ⟨false, []⟩ ∧
    (copyEvent event calendarId (appConfig calendarId)).start = event.start ∧
    (copyEvent event calendarId (appConfig calendarId)).endTime = event.endTime ∧
    (copyEvent event calendarId (appConfig calendarId)).recurrence = event.recurrence ∧
    (copyEvent event calendarId (appConfig calendarId)).recurringEventId = event.recurringEventId ∧
    (copyEvent event calendarId (appConfig calendarId)).originalStartTime = event.originalStartTime := by
  have hcond : suppressCond calendarId event = false := by
    cases h : suppressCond calendarId event <;> simp [disposition, h] at hdisp ⊢
  refine ⟨?_, rfl, rfl, rfl, rfl, rfl, rfl, rfl⟩
  simp [syncEvent, hget, hcond, mirrorBranch, isMutation, List.filter]

/-- A concrete brand-new, accepted, opaque event. -/
def evC8 : Event :=
  { id := "e8", summary := some "New", start := some { dateTime := some "t0" },
    endTime := some { dateTime := some "t1" }, recurrence := some ["RRULE:X"],
    recurringEventId := some "r8", originalStartTime := some { dateTime := some "t0" } }

/-- Witness for C8 at `evC8` with a `Not Found` mirror lookup. -/
theorem c8_mirror_creation_witness :
    (syncEvent (fun _ => {}) (Except.error "Not Found") "cal" evC8).1.filter isMutation =
      [.importEvent (copyEvent evC8 "cal" ((fun _ => ({} : CalendarSyncConfig)) "cal")) "primary"] ∧
    (copyEvent evC8 "cal" ((fun _ => ({} : CalendarSyncConfig)) "cal")).id = evC8.id ∧
    (copyEvent evC8 "cal" ((fun _ => ({} : CalendarSyncConfig)) "cal")).reminders = some ⟨false, []⟩ ∧
    (copyEvent evC8 "cal" ((fun _ => ({} : CalendarSyncConfig)) "cal")).start = evC8.start ∧
    (copyEvent evC8 "cal" ((fun _ => ({} : CalendarSyncConfig)) "cal")).endTime = evC8.endTime ∧
    (copyEvent evC8 "cal" ((fun _ => ({} : CalendarSyncConfig)) "cal")).recurrence = evC8.recurrence ∧
    (copyEvent evC8 "cal" ((fun _ => ({} : CalendarSyncConfig)) "cal")).recurringEventId = evC8.recurringEventId ∧
    (copyEvent evC8 "cal" ((fun _ => ({} : CalendarSyncConfig)) "cal")).originalStartTime = evC8.originalStartTime :=
  c8_mirror_creation (fun _ => {}) (Except.error "Not Found") "cal" evC8 (by decide) rfl

/-! ## Claim C4 -/

/-- Claim C4: in every fetch run the stored cursor is written at most once;
any write is the final step of the run's trace (so it happens only after the
last page was retrieved and every qualifying event was dispatched) and
happens only when the run ends normally; a run that ends in an error writes
no cursor and leaves the stored cursor unchanged or (cursor-invalid case)
deleted. -/
theorem c4_cursor_write_discipline (calendarId : String) (cb : String → Event → Option String)
    (fullSync : Bool) (now : JsDate) (props : Props) (responses : List ListOutcome) :
    (setOps (fetchEvents calendarId cb fullSync now props responses).1.trace).length ≤ 1 ∧
    (∀ item ∈ (fetchEvents calendarId cb fullSync now props responses).1.trace.dropLast,
      ∀ k v, item ≠ .setProp k v) ∧
    ((fetchEvents calendarId cb fullSync now props responses).1.outcome ≠ .ok →
      setOps (fetchEvents calendarId cb fullSync now props responses).1.trace = [] ∧
      ((fetchEvents calendarId cb fullSync now props responses).2 ("syncToken/" ++ calendarId) =
          props ("syncToken/" ++ calendarId) ∨
        (fetchEvents calendarId cb fullSync now props responses).2 ("syncToken/" ++ calendarId) =
          none)) ∧
    ((fetchEvents calendarId cb fullSync now props responses).1.outcome = .ok →
      ∃ t v, (fetchEvents calendarId cb fullSync now props responses).1.trace =
          t ++ [.setProp ("syncToken/" ++ calendarId) v] ∧ setOps t = [] ∧
        (fetchEvents calendarId cb fullSync now props responses).2 ("syncToken/" ++ calendarId) =
          v) := by
  obtain ⟨hoff, hok, hnok, hdisp, hreq⟩ := fetchEvents_inv calendarId cb fullSync now props responses
  by_cases h : (fetchEvents calendarId cb fullSync now props responses).1.outcome = .ok
  · rcases hok h with ⟨t, v, htr, hset, hv⟩
    refine ⟨?_, ?_, ?_, ?_⟩
    · rw [htr, setOps_append, hset]
      simp [setOps_cons_set, setOps_nil]
    · intro item hi k v'
      rw [htr, List.dropLast_concat] at hi
      exact setOps_eq_nil_no_set hset item hi k v'
    · intro hno; exact absurd h hno
    · intro _; exact ⟨t, v, htr, hset, hv⟩
  · rcases hnok h with ⟨hset, hp⟩
    refine ⟨?_, ?_, ?_, ?_⟩
    · simp [hset]
    · intro item hi k v
      exact setOps_eq_nil_no_set hset item (List.dropLast_subset _ hi) k v
    · intro _; exact ⟨hset, hp⟩
    · intro hok'; exact absurd hok' h

/-- Witness for C4: a run aborted by a plain listing error writes no
cursor. -/
theorem c4_cursor_write_discipline_witness :
    setOps (fetchEvents "cal" (fun _ _ => none) false ⟨0, 0, 0, 0, 0⟩ (fun _ => none)
      [.failure "boom"]).1.trace = [] :=
  ((c4_cursor_write_discipline "cal" (fun _ _ => none) false ⟨0, 0, 0, 0, 0⟩ (fun _ => none)
      [.failure "boom"]).2.2.1 (by decide)).1

/-! ## Claim C5 -/

/-- A plain event used to exhibit duplicate dispatch across the
cursor-invalid restart. -/
def evA : Event := { id := "a" }

/-- Counterexample to claim C5's no-duplicate-dispatch part: the first
incremental page dispatches `evA`, the second page request fails with the
cursor-invalid error, and the full-sync restart returns `evA` again — so the
run dispatches `evA` twice even though it was already dispatched during the
aborted incremental page sequence. -/
theorem c5_counterexample :
    isInvalidTokenFailure (.failure syncTokenInvalidMsg) = true ∧
    dispatches (fetchEvents "cal" (fun _ _ => none) false ⟨0, 0, 0, 0, 0⟩
        (propsSet (fun _ => none) "syncToken/cal" (some "tok"))
        [.success [evA] (some "p2") none, .failure syncTokenInvalidMsg,
          .success [evA] none (some "t2")]).1.trace = [("cal", evA), ("cal", evA)] ∧
    (fetchEvents "cal" (fun _ _ => none) false ⟨0, 0, 0, 0, 0⟩
        (propsSet (fun _ => none) "syncToken/cal" (some "tok"))
        [.success [evA] (some "p2") none, .failure syncTokenInvalidMsg,
          .success [evA] none (some "t2")]).1.outcome = .ok := by
  refine ⟨by decide, rfl, rfl⟩

/-- Claim C5 amended: a cursor-invalid `List` failure during an incremental
fetch deletes the stored cursor exactly once and restarts the same calendar
in full-sync mode (every request of the run carries either the stored cursor
with no time bound or the full-sync window with no cursor), provided the
restarted sequence sees no further cursor-invalid failure; events dispatched
during the aborted incremental page sequence may be dispatched again by the
restart.  Any other `List` failure makes the run throw the wrapped listing
error, writing no cursor and leaving the property store untouched. -/
theorem c5_cursor_invalid_restart :
    (∀ (calendarId : String) (cb : String → Event → Option String) (now : JsDate)
      (props : Props) (pre : List ListOutcome) (msg : String) (post : List ListOutcome),
      (∀ c e, cb c e = none) →
      (∀ r ∈ pre, isContinuingPage r = true) →
      strEndsWith msg syncTokenInvalidMsg = true →
      (∀ r ∈ post, isInvalidTokenFailure r = false) →
      jsTruthyStr (props ("syncToken/" ++ calendarId)) = true →
      delOps (fetchEvents calendarId cb false now props
          (pre ++ .failure msg :: post)).1.trace = [.delProp ("syncToken/" ++ calendarId)] ∧
      (∀ o ∈ requestsOf (fetchEvents calendarId cb false now props
          (pre ++ .failure msg :: post)).1.trace,
        (o.syncToken = props ("syncToken/" ++ calendarId) ∧ o.timeMin = none) ∨
        (o.syncToken = none ∧
          o.timeMin = some (isoString (getRelativeDate now (-30) 0))))) ∧
    (∀ (calendarId : String) (cb : String → Event → Option String) (fullSync : Bool)
      (now : JsDate) (props : Props) (pre : List ListOutcome) (msg : String)
      (post : List ListOutcome),
      (∀ c e, cb c e = none) →
      (∀ r ∈ pre, isContinuingPage r = true) →
      strEndsWith msg syncTokenInvalidMsg = false →
      (fetchEvents calendarId cb fullSync now props
          (pre ++ .failure msg :: post)).1.outcome = .thrown "Error while listing events" ∧
      setOps (fetchEvents calendarId cb fullSync now props
        (pre ++ .failure msg :: post)).1.trace = [] ∧
      (fetchEvents calendarId cb fullSync now props (pre ++ .failure msg :: post)).2 = props) := by
  constructor
  · intro calendarId cb now props pre msg post hcb hpre hmsg hpost htok
    have hcond : (if jsTruthyStr (props ("syncToken/" ++ calendarId)) && !false
        then incrementalOptions props calendarId
        else fullSyncOptions now) = incrementalOptions props calendarId := by
      simp [htok]
    constructor
    · rw [fetchEvents_eq, hcond]
      exact fetchPages_invalid_recovery_del cb calendarId ("syncToken/" ++ calendarId)
        (fullSyncOptions now) hcb pre (incrementalOptions props calendarId) none props msg post
        hpre hmsg hpost
    · intro o ho
      have h := (fetchEvents_inv calendarId cb false now props
        (pre ++ .failure msg :: post)).2.2.2.2 o ho
      rw [hcond] at h
      rcases h with ⟨pt, rfl⟩ | ⟨pt, rfl⟩
      · exact Or.inl ⟨rfl, rfl⟩
      · exact Or.inr ⟨rfl, rfl⟩
  · intro calendarId cb fullSync now props pre msg post hcb hpre hmsg
    rw [fetchEvents_eq]
    exact fetchPages_other_error cb calendarId ("syncToken/" ++ calendarId)
      (fullSyncOptions now) hcb pre _ none props msg post hpre hmsg

/-- Witness for the amended C5: a first-request cursor-invalid failure
deletes the stored cursor exactly once. -/
theorem c5_cursor_invalid_restart_witness :
    delOps (fetchEvents "cal" (fun _ _ => none) false ⟨0, 0, 0, 0, 0⟩
        (propsSet (fun _ => none) "syncToken/cal" (some "tok"))
        ([] ++ .failure syncTokenInvalidMsg :: [.success [] none (some "t2")])).1.trace =
      [.delProp ("syncToken/" ++ "cal")] :=
  (c5_cursor_invalid_restart.1 "cal" (fun _ _ => none) ⟨0, 0, 0, 0, 0⟩
    (propsSet (fun _ => none) "syncToken/cal" (some "tok")) [] syncTokenInvalidMsg
    [.success [] none (some "t2")] (fun _ _ => rfl) (by simp) (by decide) (by decide)
    (by decide)).1

/-! ## Claim C6 -/

/-- Claim C6: no out-of-office event is ever dispatched to the per-event
callback, and every gateway call the sync run issues arises from some
dispatched event, which is never out-of-office — so no `Get`, `Create`,
`Update` or `Delete` is ever made for an out-of-office event. -/
theorem c6_out_of_office_isolation (appConfig : String → CalendarSyncConfig)
    (g : String → Except String Event) (calendarId : String) (fullSync : Bool) (now : JsDate)
    (props : Props) (responses : List ListOutcome) (ev : Event)
    (hooo : ev.eventType = some "outOfOffice") :
    (∀ ce ∈ dispatches (fetchEvents calendarId (syncEventCb appConfig g) fullSync now props
        responses).1.trace, ce.2 ≠ ev) ∧
    (∀ call ∈ syncRunCalls appConfig g (fetchEvents calendarId (syncEventCb appConfig g)
        fullSync now props responses).1.trace,
      ∃ ce ∈ dispatches (fetchEvents calendarId (syncEventCb appConfig g) fullSync now props
          responses).1.trace,
        ce.2.eventType ≠ some "outOfOffice" ∧
        call ∈ (syncEvent appConfig (g ce.2.id) ce.1 ce.2).1) := by
  obtain ⟨-, -, -, hdisp, -⟩ :=
    fetchEvents_inv calendarId (syncEventCb appConfig g) fullSync now props responses
  constructor
  · intro ce hce heq
    exact (hdisp ce hce).2 (by rw [heq, hooo])
  · intro call hcall
    simp only [syncRunCalls] at hcall
    rcases List.mem_flatMap.mp hcall with ⟨ce, hce, hc⟩
    exact ⟨ce, hce, (hdisp ce hce).2, hc⟩

/-- A concrete out-of-office event. -/
def evOoo : Event := { id := "o", eventType := some "outOfOffice" }

/-- Witness for C6: a fetched out-of-office event is not dispatched. -/
theorem c6_out_of_office_isolation_witness :
    ("cal", evOoo) ∉ dispatches (fetchEvents "cal"
        (syncEventCb (fun _ => {}) (fun _ => .error "Not Found")) true ⟨0, 0, 0, 0, 0⟩
        (fun _ => none) [.success [evOoo] none (some "t")]).1.trace :=
  fun h =>
    (c6_out_of_office_isolation (fun _ => {}) (fun _ => .error "Not Found") "cal" true
      ⟨0, 0, 0, 0, 0⟩ (fun _ => none) [.success [evOoo] none (some "t")] evOoo rfl).1
      ("cal", evOoo) h rfl

/-! ## Claim C9 -/

/-- The claim's reading of the full-sync lower bound: exactly 30 days before
the current time, the time of day preserved.  This definition follows the
claim's words and is compared with `getRelativeDate`, which follows the
code. -/
def thirtyDaysBefore (now : JsDate) : JsDate :=
  { now with day := now.day - 30 }

/-- Counterexample to claim C9's time-bound part: at a current time of
12:34:56.789, the full-sync request's lower bound is midnight of the day 30
days back (`getRelativeDate(-30, 0)` zeroes the time of day), not "30 days
before the current time". -/
theorem c9_counterexample :
    (requestsOf (fetchEvents "cal" (fun _ _ => none) false ⟨1000, 12, 34, 56, 789⟩
        (fun _ => none) [.success [] none (some "t")]).1.trace).head? =
      some { maxResults := some 100, syncToken := none,
             timeMin := some (isoString (getRelativeDate ⟨1000, 12, 34, 56, 789⟩ (-30) 0)),
             pageToken := none } ∧
    getRelativeDate ⟨1000, 12, 34, 56, 789⟩ (-30) 0 ≠ thirtyDaysBefore ⟨1000, 12, 34, 56, 789⟩ ∧
    isoString (getRelativeDate ⟨1000, 12, 34, 56, 789⟩ (-30) 0) ≠
      isoString (thirtyDaysBefore ⟨1000, 12, 34, 56, 789⟩) := by
  refine ⟨rfl, by decide, by decide⟩

/-- Claim C9 amended: with a stored cursor and `forceFullSync` false the
first request carries the cursor and no time bound; otherwise it carries a
lower time bound equal to *midnight of the day* 30 days before the current
time (no upper bound exists in the options at all); every request fixes the
page size at 100; and with successful pages and a non-throwing callback the
requests follow the page-token chain sequentially. -/
theorem c9_list_request_shape :
    (∀ (calendarId : String) (cb : String → Event → Option String) (fullSync : Bool)
      (now : JsDate) (props : Props) (responses : List ListOutcome),
      (requestsOf (fetchEvents calendarId cb fullSync now props responses).1.trace).head? =
        some (if jsTruthyStr (props ("syncToken/" ++ calendarId)) && !fullSync
              then { maxResults := some 100, syncToken := props ("syncToken/" ++ calendarId),
                     timeMin := none, pageToken := none }
              else { maxResults := some 100, syncToken := none,
                     timeMin := some (isoString (getRelativeDate now (-30) 0)),
                     pageToken := none })) ∧
    (∀ (calendarId : String) (cb : String → Event → Option String) (fullSync : Bool)
      (now : JsDate) (props : Props) (responses : List ListOutcome),
      ∀ o ∈ requestsOf (fetchEvents calendarId cb fullSync now props responses).1.trace,
        o.maxResults = some 100) ∧
    (∀ (calendarId : String) (cb : String → Event → Option String) (fullSync : Bool)
      (now : JsDate) (props : Props) (responses : List ListOutcome),
      (∀ c e, cb c e = none) → (∀ r ∈ responses, isSuccessPage r = true) →
      (requestsOf (fetchEvents calendarId cb fullSync now props responses).1.trace).map
        (fun o => o.pageToken) = none :: chainFrom responses) := by
  refine ⟨fetchEvents_first_request, ?_, ?_⟩
  · intro calendarId cb fullSync now props responses o ho
    have h := (fetchEvents_inv calendarId cb fullSync now props responses).2.2.2.2 o ho
    rcases h with ⟨pt, rfl⟩ | ⟨pt, rfl⟩
    · cases hc : jsTruthyStr (props ("syncToken/" ++ calendarId)) && !fullSync <;>
        simp [hc, incrementalOptions, fullSyncOptions]
    · simp [fullSyncOptions]
  · intro calendarId cb fullSync now props responses hcb hs
    rw [fetchEvents_eq]
    exact fetchPages_pageToken_chain cb calendarId ("syncToken/" ++ calendarId)
      (fullSyncOptions now) hcb responses _ none props hs

/-- Witness for the amended C9: a two-page full sync follows the page-token
chain. -/
theorem c9_list_request_shape_witness :
    (requestsOf (fetchEvents "cal" (fun _ _ => none) true ⟨0, 0, 0, 0, 0⟩ (fun _ => none)
        [.success [] (some "p2") none, .success [] none (some "t")]).1.trace).map
      (fun o => o.pageToken) =
      none :: chainFrom [.success [] (some "p2") none, .success [] none (some "t")] :=
  c9_list_request_shape.2.2 "cal" (fun _ _ => none) true ⟨0, 0, 0, 0, 0⟩ (fun _ => none)
    [.success [] (some "p2") none, .success [] none (some "t")] (fun _ _ => rfl) (by decide)

/-! ## Claim C10 -/

theorem fetchEvents_off_key (calendarId : String) (cb : String → Event → Option String)
    (fullSync : Bool) (now : JsDate) (props : Props) (responses : List ListOutcome)
    (k : String) (hk : k ≠ "syncToken/" ++ calendarId) :
    (fetchEvents calendarId cb fullSync now props responses).2 k = props k :=
  (fetchEvents_inv calendarId cb fullSync now props responses).1 k hk

theorem removeAllEvents_off_keys :
    ∀ (appConfig : List (String × CalendarSyncConfig)) (now : JsDate)
      (gw : String → List ListOutcome) (props : Props) (k : String),
      (∀ p ∈ appConfig, k ≠ "syncToken/" ++ p.1) →
      (removeAllEvents appConfig now gw props).2 k = props k := by
  intro appConfig
  induction appConfig with
  | nil => intro now gw props k _; rfl
  | cons entry rest ih =>
    intro now gw props k hk
    rcases entry with ⟨cid, cfg⟩
    simp only [removeAllEvents]
    rw [ih now gw _ k (fun p hp => hk p (List.mem_cons_of_mem _ hp))]
    exact fetchEvents_off_key cid deleteEventCb true now props (gw cid) k
      (hk _ (List.mem_cons_self ..))

/-- Claim C10: every fetch run that ends normally persists the new cursor as
its final step, whatever the per-event callback; in particular the bulk
teardown `removeAllEvents` advances the stored cursor of each configured
calendar whose run ended normally; and a subsequent incremental run for a
calendar with a stored cursor issues its first request with that cursor and
no time window (so it does not re-deliver the full window processed during
teardown). -/
theorem c10_cursor_advances_after_teardown :
    (∀ (calendarId : String) (cb : String → Event → Option String) (fullSync : Bool)
      (now : JsDate) (props : Props) (responses : List ListOutcome),
      (fetchEvents calendarId cb fullSync now props responses).1.outcome = .ok →
      ∃ t v, (fetchEvents calendarId cb fullSync now props responses).1.trace =
          t ++ [.setProp ("syncToken/" ++ calendarId) v] ∧
        (fetchEvents calendarId cb fullSync now props responses).2
          ("syncToken/" ++ calendarId) = v) ∧
    (∀ (appConfig : List (String × CalendarSyncConfig)) (now : JsDate)
      (gw : String → List ListOutcome) (props : Props),
      (appConfig.map fun p => "syncToken/" ++ p.1).Nodup →
      ∀ entry ∈ (removeAllEvents appConfig now gw props).1,
        entry.2.outcome = .ok →
        ∃ t v, entry.2.trace = t ++ [.setProp ("syncToken/" ++ entry.1) v] ∧
          (removeAllEvents appConfig now gw props).2 ("syncToken/" ++ entry.1) = v) ∧
    (∀ (calendarId : String) (cb : String → Event → Option String) (now : JsDate)
      (props : Props) (responses : List ListOutcome),
      jsTruthyStr (props ("syncToken/" ++ calendarId)) = true →
      (requestsOf (fetchEvents calendarId cb false now props responses).1.trace).head? =
        some { maxResults := some 100, syncToken := props ("syncToken/" ++ calendarId),
               timeMin := none, pageToken := none }) := by
  refine ⟨?_, ?_, ?_⟩
  · intro calendarId cb fullSync now props responses hok
    rcases (fetchEvents_inv calendarId cb fullSync now props responses).2.1 hok with
      ⟨t, v, htr, -, hv⟩
    exact ⟨t, v, htr, hv⟩
  · intro appConfig
    induction appConfig with
    | nil =>
      intro now gw props _ entry he
      simp [removeAllEvents] at he
    | cons p rest ih =>
      intro now gw props hnd entry he hok
      rcases p with ⟨cid, cfg⟩
      rw [List.map_cons, List.nodup_cons] at hnd
      simp only [removeAllEvents] at he ⊢
      rcases List.mem_cons.mp he with he | he
      · subst he
        simp only at hok ⊢
        rcases (fetchEvents_inv cid deleteEventCb true now props (gw cid)).2.1 hok with
          ⟨t, v, htr, -, hv⟩
        refine ⟨t, v, htr, ?_⟩
        rw [removeAllEvents_off_keys rest now gw _ ("syncToken/" ++ cid)
          (fun p' hp' heq => hnd.1 (heq ▸ List.mem_map_of_mem _ hp'))]
        exact hv
      · exact ih now gw _ hnd.2 entry he hok
  · intro calendarId cb now props responses htok
    have h := fetchEvents_first_request calendarId cb false now props responses
    simpa [htok] using h

/-- Witness for C10: after a teardown stored a cursor, the next incremental
run's first request carries it. -/
theorem c10_cursor_advances_after_teardown_witness :
    (requestsOf (fetchEvents "cal" deleteEventCb false ⟨0, 0, 0, 0, 0⟩
        (propsSet (fun _ => none) "syncToken/cal" (some "tok2")) []).1.trace).head? =
      some { maxResults := some 100,
             syncToken := propsSet (fun _ => none) "syncToken/cal" (some "tok2")
               ("syncToken/" ++ "cal"),
             timeMin := none, pageToken := none } :=
  c10_cursor_advances_after_teardown.2.2 "cal" deleteEventCb ⟨0, 0, 0, 0, 0⟩
    (propsSet (fun _ => none) "syncToken/cal" (some "tok2")) [] (by decide)

end GCalSync
